import Mathlib

/-!
Shallow embedding of the tourbox native addon's protocol/state engine
(`src/tourbox_client.cc`, `src/tourbox_server.cc`, `src/tourbox_addon.cc`),
together with theorems checking the specification's claims about it.

The embedding follows the C++ source: the control table is the literal
initializer list of `TourBoxClientWrapper::initializeControlMap`; the button
registry is the server's `buttonStates` map (`std::map<int,bool>`, modelled as
`Nat → Option Bool` — an absent key is `none`); the per-chunk decoding is the
hex-encode step of `processData` followed by the hex-parse and run-grouping
loops of `parseTourBoxData`, each group dispatched through
`handleTourBoxInput`; the host-facing surface is the global state of
`tourbox_addon.cc` (`g_servers`, `g_nextServerId`, `g_eventCallback`,
`g_rawCallback`) with `CreateServer` / `StopServer` / `ButtonState`.
-/

namespace Tourbox

/-- One entry of the control table: `ControlAction(name, isPress, releaseCode, lambda)`
from `tourbox_client.h`.  `releaseCode` is a C `int`, `-1` meaning "no paired
release", so it is modelled as `Int`.  The emission lambda is not data: every
entry's lambda is `EmitToNode(name, count)`, which the decoder model emits
directly. -/
structure ControlAction where
  name : String
  isPress : Bool
  releaseCode : Int
deriving DecidableEq

/-- The control table built by `TourBoxClientWrapper::initializeControlMap`
(`tourbox_client.cc` lines 38-92), as the association list of its initializer.
The C++ container is a `std::map<int, ControlAction>`; its keys here are all
distinct, so `List.lookup` agrees with `std::map::find`. -/
def controlMap : List (Nat × ControlAction) :=
  [ (132, ⟨"Knob CCW",       false, -1⟩),
    (196, ⟨"Knob CW",        false, -1⟩),
    (137, ⟨"Scroll Down",    false, -1⟩),
    (201, ⟨"Scroll Up",      false, -1⟩),
    (143, ⟨"Dial CCW",       false, -1⟩),
    (207, ⟨"Dial CW",        false, -1⟩),
    (55,  ⟨"Knob Press",     true, 183⟩),
    (183, ⟨"Knob Release",   false, -1⟩),
    (56,  ⟨"Dial Press",     true, 184⟩),
    (184, ⟨"Dial Release",   false, -1⟩),
    (16,  ⟨"Up Press",       true, 144⟩),
    (144, ⟨"Up Release",     false, -1⟩),
    (17,  ⟨"Down Press",     true, 145⟩),
    (145, ⟨"Down Release",   false, -1⟩),
    (18,  ⟨"Left Press",     true, 146⟩),
    (146, ⟨"Left Release",   false, -1⟩),
    (19,  ⟨"Right Press",    true, 147⟩),
    (147, ⟨"Right Release",  false, -1⟩),
    (0,   ⟨"Tall Press",     true, 128⟩),
    (128, ⟨"Tall Release",   false, -1⟩),
    (1,   ⟨"Side Press",     true, 129⟩),
    (129, ⟨"Side Release",   false, -1⟩),
    (2,   ⟨"Top Press",      true, 130⟩),
    (130, ⟨"Top Release",    false, -1⟩),
    (3,   ⟨"Short Press",    true, 131⟩),
    (131, ⟨"Short Release",  false, -1⟩),
    (42,  ⟨"Tour Press",     true, 170⟩),
    (170, ⟨"Tour Release",   false, -1⟩),
    (34,  ⟨"C1 Press",       true, 162⟩),
    (162, ⟨"C1 Release",     false, -1⟩),
    (35,  ⟨"C2 Press",       true, 163⟩),
    (163, ⟨"C2 Release",     false, -1⟩),
    (10,  ⟨"Scroll Press",   true, 138⟩),
    (138, ⟨"Scroll Release", false, -1⟩) ]

/-- The server's `buttonStates` (`std::map<int,bool>` in `tourbox_server.h`):
a partial map from byte code to held flag; `none` models an absent key. -/
abbrev Reg := Nat → Option Bool

/-- A freshly constructed server's empty `buttonStates` map. -/
def emptyReg : Reg := fun _ => none

/-- `TourBoxServerWrapper::SetButtonHeld` (`tourbox_server.cc` 205-209):
`buttonStates[code] = held`, an unconditional insert-or-update. -/
def SetButtonHeld (r : Reg) (code : Nat) (held : Bool) : Reg :=
  fun c => if c = code then some held else r c

/-- `TourBoxServerWrapper::IsButtonHeld` (`tourbox_server.cc` 211-216):
`it != buttonStates.end() && it->second`; a missing key reads as `false`. -/
def IsButtonHeld (r : Reg) (code : Nat) : Bool :=
  (r code).getD false

/-- The release-path scan of `handleTourBoxInput` (`tourbox_client.cc`
283-292): iterate the control map for the first entry with
`ca.isPress && ca.releaseCode == releaseValue`, yielding its byte code
(`pressCodeToClear`), or `none` when the loop finds no match (`-1`).
`std::map` iterates in ascending key order; this scans in initializer order,
which yields the same entry because release codes are unique among press
entries (proved below). -/
def findPressCodeToClear (releaseValue : Nat) : Option Nat :=
  (controlMap.find? fun kv => kv.2.isPress && kv.2.releaseCode == (releaseValue : Int))
    |>.map (·.1)

/-- `TourBoxClientWrapper::handleTourBoxInput` (`tourbox_client.cc` 261-308)
acting on the shared registry: unknown byte → no event, no state change;
press → `SetButtonHeld value true`; otherwise find the press code whose
release code is this value and clear it only when currently held; in every
resolved case emit the single event `(action.name, count)` via the entry's
`EmitToNode` lambda. -/
def handleTourBoxInput (reg : Reg) (value count : Nat) :
    Reg × List (String × Nat) :=
  match controlMap.lookup value with
  | none => (reg, [])
  | some action =>
    let reg' :=
      if action.isPress then
        SetButtonHeld reg value true
      else
        match findPressCodeToClear value with
        | some p => if IsButtonHeld reg p then SetButtonHeld reg p false else reg
        | none => reg
    (reg', [(action.name, count)])

/-- The grouping loop of `parseTourBoxData` (`tourbox_client.cc` 196-243)
after the first byte has seeded `currentValue := cur, count := cnt`: equal
next byte increments the count, a different byte closes the group `(cur,cnt)`
and reseeds; the final group is closed when the bytes run out. -/
def parseGroupsAux (cur cnt : Nat) : List Nat → List (Nat × Nat)
  | [] => [(cur, cnt)]
  | b :: rest =>
    if b = cur then parseGroupsAux cur (cnt + 1) rest
    else (cur, cnt) :: parseGroupsAux b 1 rest

/-- The groups `(currentValue, count)` that `parseTourBoxData` passes to
`handleTourBoxInput`, in call order, for one chunk's byte list; an empty
byte list produces no calls (`if (!bytes.empty())`). -/
def parseGroups : List Nat → List (Nat × Nat)
  | [] => []
  | b :: rest => parseGroupsAux b 1 rest

/-- Dispatching the groups of one chunk in order through
`handleTourBoxInput`, threading the registry and concatenating the emitted
events. -/
def processGroups (reg : Reg) : List (Nat × Nat) → Reg × List (String × Nat)
  | [] => (reg, [])
  | (v, c) :: gs =>
    let r1 := handleTourBoxInput reg v c
    let r2 := processGroups r1.1 gs
    (r2.1, r1.2 ++ r2.2)

/-- One lowercase hex digit as produced by `std::hex` in `processData`
(`tourbox_client.cc` 149-150); defined for `n < 16`. -/
def hexDigitChar (n : Nat) : Char :=
  if n < 10 then Char.ofNat (48 + n) else Char.ofNat (87 + n)

/-- The two-character field `std::setw(2) << std::setfill('0') << std::hex`
emits for one byte value `(int)(unsigned char)buffer[i]`; for `b < 256`
this is exactly high then low nibble. -/
def byteToHex (b : Nat) : List Char :=
  [hexDigitChar (b / 16), hexDigitChar (b % 16)]

/-- The full hex string `processData` builds from a received chunk
(`tourbox_client.cc` 146-152), as its character list. -/
def bytesToHex (bs : List Nat) : List Char :=
  (bs.map byteToHex).flatten

/-- The value `std::stoi` assigns to one hex digit character (digits,
lowercase and uppercase letters); `none` models `std::invalid_argument`. -/
def hexCharVal (c : Char) : Option Nat :=
  if 48 ≤ c.toNat ∧ c.toNat ≤ 57 then some (c.toNat - 48)
  else if 97 ≤ c.toNat ∧ c.toNat ≤ 102 then some (c.toNat - 87)
  else if 65 ≤ c.toNat ∧ c.toNat ≤ 70 then some (c.toNat - 55)
  else none

/-- `std::stoi(byteHex, nullptr, 16)` on the two-character substring
(`tourbox_client.cc` 189-191): no leading digit throws (`none`); a lone
leading digit parses alone (`stoi` stops at the first non-digit); two digits
parse as one byte value. -/
def stoiHex2 (c1 c2 : Char) : Option Nat :=
  match hexCharVal c1 with
  | none => none
  | some v1 =>
    match hexCharVal c2 with
    | none => some v1
    | some v2 => some (16 * v1 + v2)

/-- The hex-to-bytes loop of `parseTourBoxData` (`tourbox_client.cc`
185-194): consume two characters at a time, skipping a trailing lone
character (`i + 1 < hexData.length()`); a `stoi` exception aborts the whole
parse before any group is handled (`none`, the surrounding `try`/`catch`). -/
def hexToBytes : List Char → Option (List Nat)
  | c1 :: c2 :: rest =>
    match stoiHex2 c1 c2 with
    | none => none
    | some v => (hexToBytes rest).map (v :: ·)
  | _ => some []

/-- `TourBoxClientWrapper::processData` followed by `parseTourBoxData` for
one received chunk (`tourbox_client.cc` 140-168, 177-249): hex-encode the
chunk, re-parse it into byte values, group consecutive identical values and
dispatch each group. -/
def processData (reg : Reg) (bs : List Nat) : Reg × List (String × Nat) :=
  match hexToBytes (bytesToHex bs) with
  | none => (reg, [])
  | some bytes => processGroups reg (parseGroups bytes)

/-- `g_nameToCode` from `tourbox_addon.cc` (lines 12-22): control name to
byte code. -/
def nameToCode : List (String × Nat) :=
  [ ("Knob CCW", 132), ("Knob CW", 196), ("Scroll Down", 137), ("Scroll Up", 201),
    ("Dial CCW", 143), ("Dial CW", 207), ("Knob Press", 55), ("Knob Release", 183),
    ("Dial Press", 56), ("Dial Release", 184), ("Up Press", 16), ("Up Release", 144),
    ("Down Press", 17), ("Down Release", 145), ("Left Press", 18), ("Left Release", 146),
    ("Right Press", 19), ("Right Release", 147), ("Tall Press", 0), ("Tall Release", 128),
    ("Side Press", 1), ("Side Release", 129), ("Top Press", 2), ("Top Release", 130),
    ("Short Press", 3), ("Short Release", 131), ("Tour Press", 42), ("Tour Release", 170),
    ("C1 Press", 34), ("C1 Release", 162), ("C2 Press", 35), ("C2 Release", 163),
    ("Scroll Press", 10), ("Scroll Release", 138) ]

/-- The name-resolution step of `ButtonState` (`tourbox_addon.cc` 51-59):
exact lookup in `g_nameToCode`, then the `name + " Press"` fallback. -/
def resolveNameToCode (n : String) : Option Nat :=
  match nameToCode.lookup n with
  | some c => some c
  | none => nameToCode.lookup (n ++ " Press")

/-- The one-argument `buttonState(name)` query (`tourbox_addon.cc` 51-72):
resolve the name (with fallback); an unresolvable name returns `false`;
otherwise true when any live server reports the code held. -/
def buttonStateAll (servers : List Reg) (n : String) : Bool :=
  match resolveNameToCode n with
  | none => false
  | some code => servers.any fun r => IsButtonHeld r code

/-- The process-global state of `tourbox_addon.cc`: `g_servers` (id → server
button registry), `g_nextServerId`, and the two global thread-safe callback
handles, each `none` when not currently held and `some tok` when holding the
host function identified by `tok`. -/
structure AddonState where
  servers : List (Nat × Reg)
  nextServerId : Nat
  eventCallback : Option Nat
  rawCallback : Option Nat

/-- `CreateServer` (`tourbox_addon.cc` 137-211): unconditionally overwrite
`g_eventCallback` with a handle to the supplied function, overwrite
`g_rawCallback` only when a raw callback argument is supplied, then attempt
to start the server; on success (`startOk`) allocate `g_nextServerId++` and
register the fresh server, returning its id; on failure return no id (the
callback overwrites have already happened). -/
def createServer (s : AddonState) (cbTok : Nat) (rawTok : Option Nat)
    (startOk : Bool) : AddonState × Option Nat :=
  let s1 : AddonState :=
    { s with
      eventCallback := some cbTok,
      rawCallback := match rawTok with | some t => some t | none => s.rawCallback }
  if startOk then
    ({ s1 with
        servers := (s1.nextServerId, emptyReg) :: s1.servers,
        nextServerId := s1.nextServerId + 1 },
      some s1.nextServerId)
  else
    (s1, none)

/-- `StopServer` (`tourbox_addon.cc` 214-246): look the id up in
`g_servers`; if present, stop and erase that server, release both global
callback handles, and return true; otherwise return false with nothing
changed. -/
def stopServer (s : AddonState) (id : Nat) : AddonState × Bool :=
  match s.servers.lookup id with
  | some _ =>
    ({ s with
        servers := s.servers.eraseP (fun kv => kv.1 == id),
        eventCallback := none,
        rawCallback := none },
      true)
  | none => (s, false)

/-- Whether a listener id is currently allocated (`g_servers.find(serverId)
!= g_servers.end()`). -/
def isLive (s : AddonState) (id : Nat) : Bool :=
  (s.servers.lookup id).isSome

/-- One host-boundary operation on the addon's global state. -/
inductive HostOp where
  | create (cbTok : Nat) (rawTok : Option Nat) (startOk : Bool)
  | stop (id : Nat)

/-- The state after one host operation. -/
def runOp (s : AddonState) : HostOp → AddonState
  | .create cb raw ok => (createServer s cb raw ok).1
  | .stop id => (stopServer s id).1

/-- The state after a sequence of host operations. -/
def runOps (s : AddonState) (ops : List HostOp) : AddonState :=
  ops.foldl runOp s

/-- The well-formedness the addon maintains for its global state: server ids
are distinct and every allocated id is below `g_nextServerId`. -/
def Wf (s : AddonState) : Prop :=
  (s.servers.map Prod.fst).Nodup ∧ ∀ kv ∈ s.servers, kv.1 < s.nextServerId

/-! ## Basic facts about the control table and association-list lookups -/

/-- The control map's keys are pairwise distinct, so `List.lookup` computes
exactly `std::map::find`. -/
theorem controlMap_keys_nodup : (controlMap.map Prod.fst).Nodup := by decide

/-- Release codes are unique among press entries of the control table. -/
theorem pressReleaseCode_unique :
    ∀ p ∈ controlMap, ∀ q ∈ controlMap, p.2.isPress = true → q.2.isPress = true →
      p.2.releaseCode = q.2.releaseCode → p = q := by decide

/-- A successful lookup exhibits a member of the association list. -/
theorem mem_of_lookup_eq_some {α β : Type} [BEq α] [LawfulBEq α]
    {l : List (α × β)} {k : α} {b : β} (h : l.lookup k = some b) :
    (k, b) ∈ l := by
  rcases List.lookup_eq_some_iff.mp h with ⟨l₁, l₂, rfl, -⟩
  simp

/-- With pairwise-distinct keys, membership determines the lookup result. -/
theorem lookup_eq_some_of_mem {α β : Type} [BEq α] [LawfulBEq α]
    {l : List (α × β)} (hnd : (l.map Prod.fst).Nodup) {k : α} {b : β}
    (h : (k, b) ∈ l) : l.lookup k = some b := by
  induction l with
  | nil => simp at h
  | cons hd tl ih =>
    obtain ⟨k', b'⟩ := hd
    rcases List.mem_cons.mp h with h | h
    · rw [Prod.mk.injEq] at h
      rw [h.1, h.2]
      exact List.lookup_cons_self
    · have hne : k' ≠ k := by
        intro he
        have hk : k ∈ tl.map Prod.fst := List.mem_map.mpr ⟨(k, b), h, rfl⟩
        rw [List.map_cons, List.nodup_cons] at hnd
        exact hnd.1 (he ▸ hk)
      have hb : (k == k') = false := by
        simp only [beq_eq_false_iff_ne, ne_eq]
        exact fun he => hne he.symm
      rw [List.lookup_cons, hb]
      exact ih (by rw [List.map_cons, List.nodup_cons] at hnd; exact hnd.2) h

/-! ## Claim theorems: per-group dispatch -/

/-- C5: a group whose byte is not a key of the control table is silently
dropped by `handleTourBoxInput`: no event is emitted and the button registry
is unchanged. -/
theorem unknown_byte_silently_dropped (reg : Reg) (value count : Nat)
    (h : controlMap.lookup value = none) :
    handleTourBoxInput reg value count = (reg, []) := by
  simp [handleTourBoxInput, h]

theorem unknown_byte_silently_dropped_witness :
    controlMap.lookup 99 = none ∧ handleTourBoxInput emptyReg 99 7 = (emptyReg, []) :=
  ⟨by decide, unknown_byte_silently_dropped emptyReg 99 7 (by decide)⟩

/-- C2: a group whose byte resolves to a press control writes
`Registry[byte] = true` and emits exactly the event `(control.name, count)`;
the registry in the handler's result already holds the write, so
`IsButtonHeld` on the post-state is true as soon as the event exists. -/
theorem press_group_sets_held_then_emits (reg : Reg) (value count : Nat)
    (a : ControlAction) (hl : controlMap.lookup value = some a)
    (hp : a.isPress = true) :
    handleTourBoxInput reg value count
      = (SetButtonHeld reg value true, [(a.name, count)]) ∧
    IsButtonHeld (handleTourBoxInput reg value count).1 value = true := by
  refine ⟨by simp [handleTourBoxInput, hl, hp], ?_⟩
  simp [handleTourBoxInput, hl, hp, IsButtonHeld, SetButtonHeld]

theorem press_group_sets_held_then_emits_witness :
    controlMap.lookup 34 = some ⟨"C1 Press", true, 162⟩ ∧
    (handleTourBoxInput emptyReg 34 5
        = (SetButtonHeld emptyReg 34 true, [("C1 Press", 5)]) ∧
      IsButtonHeld (handleTourBoxInput emptyReg 34 5).1 34 = true) :=
  ⟨rfl, press_group_sets_held_then_emits emptyReg 34 5 ⟨"C1 Press", true, 162⟩ rfl rfl⟩

/-- C4: a group whose byte is one of the six rotational codes emits exactly
`(control.name, count)` and leaves every entry of the button registry
unchanged. -/
theorem rotational_group_leaves_registry (reg : Reg) (value count : Nat)
    (h : value ∈ [132, 196, 137, 201, 143, 207]) :
    (handleTourBoxInput reg value count).1 = reg ∧
    ∃ a, controlMap.lookup value = some a ∧
      (handleTourBoxInput reg value count).2 = [(a.name, count)] := by
  fin_cases h <;> exact ⟨rfl, ⟨_, rfl, rfl⟩⟩

theorem rotational_group_leaves_registry_witness :
    (132 : Nat) ∈ [132, 196, 137, 201, 143, 207] ∧
    ((handleTourBoxInput emptyReg 132 3).1 = emptyReg ∧
      ∃ a, controlMap.lookup 132 = some a ∧
        (handleTourBoxInput emptyReg 132 3).2 = [(a.name, 3)]) :=
  ⟨by decide, rotational_group_leaves_registry emptyReg 132 3 (by decide)⟩

/-- C3: a group whose byte resolves to a non-press entry always emits exactly
the one event `(control.name, count)`; when some press byte `p` has this byte
as its release code, the registry entry for `p` is cleared exactly when it is
currently held; when no press entry matches, the registry is untouched. -/
theorem release_group_clears_matching_held (reg : Reg) (value count : Nat)
    (a : ControlAction) (hl : controlMap.lookup value = some a)
    (hr : a.isPress = false) :
    (handleTourBoxInput reg value count).2 = [(a.name, count)] ∧
    (∀ p pa, controlMap.lookup p = some pa → pa.isPress = true →
        pa.releaseCode = (value : Int) →
        (IsButtonHeld reg p = true →
          (handleTourBoxInput reg value count).1 = SetButtonHeld reg p false) ∧
        (IsButtonHeld reg p = false →
          (handleTourBoxInput reg value count).1 = reg)) ∧
    ((∀ q ∈ controlMap, ¬(q.2.isPress = true ∧ q.2.releaseCode = (value : Int))) →
      (handleTourBoxInput reg value count).1 = reg) := by
  refine ⟨by simp [handleTourBoxInput, hl, hr], ?_, ?_⟩
  · intro p pa hp hpp hpr
    have hmem : (p, pa) ∈ controlMap := mem_of_lookup_eq_some hp
    have hfind : findPressCodeToClear value = some p := by
      unfold findPressCodeToClear
      have hsome : (controlMap.find? fun kv =>
          kv.2.isPress && kv.2.releaseCode == (value : Int)).isSome := by
        rw [List.find?_isSome]
        exact ⟨(p, pa), hmem, by simp [hpp, hpr]⟩
      rcases Option.isSome_iff_exists.mp hsome with ⟨kv0, hkv0⟩
      have hkv0p := List.find?_some hkv0
      have hkv0m := List.mem_of_find?_eq_some hkv0
      simp only [Bool.and_eq_true, beq_iff_eq] at hkv0p
      have heq : kv0 = (p, pa) :=
        pressReleaseCode_unique kv0 hkv0m (p, pa) hmem hkv0p.1 hpp
          (hkv0p.2.trans hpr.symm)
      rw [hkv0, heq]
      rfl
    constructor
    · intro hheld
      simp [handleTourBoxInput, hl, hr, hfind, hheld]
    · intro hfree
      simp [handleTourBoxInput, hl, hr, hfind, hfree]
  · intro hnone
    have hfind : findPressCodeToClear value = none := by
      unfold findPressCodeToClear
      have hfn : (controlMap.find? fun kv =>
          kv.2.isPress && kv.2.releaseCode == (value : Int)) = none := by
        rw [List.find?_eq_none]
        intro kv hkv
        have := hnone kv hkv
        simp only [Bool.and_eq_true, beq_iff_eq]
        exact fun hc => this ⟨hc.1, hc.2⟩
      rw [hfn]
      rfl
    simp [handleTourBoxInput, hl, hr, hfind]

theorem release_group_clears_matching_held_witness :
    controlMap.lookup 162 = some ⟨"C1 Release", false, -1⟩ ∧
    (handleTourBoxInput (SetButtonHeld emptyReg 34 true) 162 1).2
      = [("C1 Release", 1)] ∧
    (handleTourBoxInput (SetButtonHeld emptyReg 34 true) 162 1).1
      = SetButtonHeld (SetButtonHeld emptyReg 34 true) 34 false ∧
    (handleTourBoxInput emptyReg 170 2).1 = emptyReg :=
  ⟨rfl,
   (release_group_clears_matching_held (SetButtonHeld emptyReg 34 true) 162 1
      ⟨"C1 Release", false, -1⟩ rfl rfl).1,
   ((release_group_clears_matching_held (SetButtonHeld emptyReg 34 true) 162 1
      ⟨"C1 Release", false, -1⟩ rfl rfl).2.1 34 ⟨"C1 Press", true, 162⟩
      rfl rfl rfl).1 rfl,
   ((release_group_clears_matching_held emptyReg 170 2
      ⟨"Tour Release", false, -1⟩ rfl rfl).2.1 42 ⟨"Tour Press", true, 170⟩
      rfl rfl rfl).2 rfl⟩

/-- A press entry of the control table (`isPress` set). -/
def isPressEntry (kv : Nat × ControlAction) : Prop :=
  kv.2.isPress = true

/-- A release entry: not a press, and some press entry names its byte as the
paired release code. -/
def isReleaseEntry (kv : Nat × ControlAction) : Prop :=
  kv.2.isPress = false ∧
  ∃ p ∈ controlMap, p.2.isPress = true ∧ p.2.releaseCode = (kv.1 : Int)

/-- A rotational entry: not a press and not any press entry's release. -/
def isRotationalEntry (kv : Nat × ControlAction) : Prop :=
  kv.2.isPress = false ∧
  ¬ ∃ p ∈ controlMap, p.2.isPress = true ∧ p.2.releaseCode = (kv.1 : Int)

/-- C6: the control table satisfies all the stated invariants: every entry is
rotational, press, or release; every press entry has a matching non-press
release entry at its release code; distinct press entries have distinct
release codes; and no entry's own byte equals its release code. -/
theorem controlMap_invariants :
    (∀ kv ∈ controlMap, isRotationalEntry kv ∨ isPressEntry kv ∨ isReleaseEntry kv) ∧
    (∀ kv ∈ controlMap, kv.2.isPress = true →
      ∃ r ∈ controlMap, (r.1 : Int) = kv.2.releaseCode ∧ r.2.isPress = false) ∧
    (∀ p ∈ controlMap, ∀ q ∈ controlMap, p.2.isPress = true → q.2.isPress = true →
      p.2.releaseCode = q.2.releaseCode → p = q) ∧
    (∀ kv ∈ controlMap, (kv.1 : Int) ≠ kv.2.releaseCode) := by
  unfold isRotationalEntry isPressEntry isReleaseEntry
  decide

theorem controlMap_invariants_witness :
    ((55, ⟨"Knob Press", true, 183⟩) : Nat × ControlAction) ∈ controlMap ∧
    (∃ r ∈ controlMap,
      (r.1 : Int) = (⟨"Knob Press", true, 183⟩ : ControlAction).releaseCode ∧
      r.2.isPress = false) ∧
    ((55 : Nat) : Int) ≠ (⟨"Knob Press", true, 183⟩ : ControlAction).releaseCode :=
  ⟨by decide,
   controlMap_invariants.2.1 (55, ⟨"Knob Press", true, 183⟩) (by decide) rfl,
   controlMap_invariants.2.2.2 (55, ⟨"Knob Press", true, 183⟩) (by decide)⟩

/-- C7: host-side name resolution: a name missing from `g_nameToCode` falls
back to `name + " Press"`, so the short name "C1" resolves to byte 34; a name
failing both lookups makes `buttonState` answer `false`. -/
theorem buttonState_name_fallback :
    (∀ n : String, nameToCode.lookup n = none →
      resolveNameToCode n = nameToCode.lookup (n ++ " Press")) ∧
    resolveNameToCode "C1" = some 34 ∧
    (∀ (servers : List Reg) (n : String),
      resolveNameToCode n = none → buttonStateAll servers n = false) := by
  refine ⟨?_, rfl, ?_⟩
  · intro n h
    simp [resolveNameToCode, h]
  · intro servers n h
    simp [buttonStateAll, h]

theorem buttonState_name_fallback_witness :
    nameToCode.lookup "Tour" = none ∧
    resolveNameToCode "Tour" = nameToCode.lookup ("Tour" ++ " Press") ∧
    resolveNameToCode "No Such Control" = none ∧
    buttonStateAll [emptyReg] "No Such Control" = false :=
  ⟨rfl, buttonState_name_fallback.1 "Tour" rfl, rfl,
   buttonState_name_fallback.2.2 [emptyReg] "No Such Control" rfl⟩

/-! ## The grouping loop produces exactly the maximal runs of a chunk -/

theorem parseGroupsAux_flatten (rest : List Nat) : ∀ cur cnt,
    ((parseGroupsAux cur cnt rest).map fun p => List.replicate p.2 p.1).flatten
      = List.replicate cnt cur ++ rest := by
  induction rest with
  | nil => intro cur cnt; simp [parseGroupsAux]
  | cons b tl ih =>
    intro cur cnt
    by_cases h : b = cur
    · subst h
      rw [parseGroupsAux, if_pos rfl, ih]
      rw [List.replicate_succ' cnt b]
      simp
    · rw [parseGroupsAux, if_neg h]
      simp [ih]

theorem parseGroupsAux_head (rest : List Nat) : ∀ cur cnt,
    ∃ k, (parseGroupsAux cur cnt rest).head? = some (cur, k) := by
  induction rest with
  | nil => intro cur cnt; exact ⟨cnt, rfl⟩
  | cons b tl ih =>
    intro cur cnt
    by_cases h : b = cur
    · subst h; rw [parseGroupsAux, if_pos rfl]; exact ih b (cnt + 1)
    · rw [parseGroupsAux, if_neg h]; exact ⟨cnt, rfl⟩

theorem parseGroupsAux_chain (rest : List Nat) : ∀ cur cnt,
    (parseGroupsAux cur cnt rest).Chain' (fun x y => x.1 ≠ y.1) := by
  induction rest with
  | nil => intro cur cnt; simp [parseGroupsAux]
  | cons b tl ih =>
    intro cur cnt
    by_cases h : b = cur
    · subst h; rw [parseGroupsAux, if_pos rfl]; exact ih b (cnt + 1)
    · rw [parseGroupsAux, if_neg h]
      rw [List.chain'_cons']
      refine ⟨?_, ih b 1⟩
      intro y hy
      rcases parseGroupsAux_head tl b 1 with ⟨k, hk⟩
      rw [hk] at hy
      cases hy
      exact fun he => h he.symm

theorem parseGroupsAux_counts (rest : List Nat) : ∀ cur cnt, 0 < cnt →
    ∀ p ∈ parseGroupsAux cur cnt rest, 0 < p.2 := by
  induction rest with
  | nil =>
    intro cur cnt hc p hp
    rw [parseGroupsAux] at hp
    rcases List.mem_singleton.mp hp with rfl
    exact hc
  | cons b tl ih =>
    intro cur cnt hc p hp
    by_cases h : b = cur
    · subst h
      rw [parseGroupsAux, if_pos rfl] at hp
      exact ih b (cnt + 1) (Nat.succ_pos cnt) p hp
    · rw [parseGroupsAux, if_neg h] at hp
      rcases List.mem_cons.mp hp with rfl | hp
      · exact hc
      · exact ih b 1 Nat.one_pos p hp

/-- C1: for a non-empty chunk, the groups `parseTourBoxData` hands to
`handleTourBoxInput` are exactly the maximal runs of identical consecutive
bytes, in order — their replicated concatenation restores the chunk, adjacent
groups carry different bytes, and every count is the (positive) run length.
Chunks are grouped independently, so `[a,a]` then `[a]` yields counts 2 then
1, never 3. -/
theorem chunk_groups_are_maximal_runs :
    (∀ l : List Nat, l ≠ [] →
      ((parseGroups l).map fun p => List.replicate p.2 p.1).flatten = l ∧
      (parseGroups l).Chain' (fun x y => x.1 ≠ y.1) ∧
      (∀ p ∈ parseGroups l, 0 < p.2)) ∧
    (∀ a : Nat, parseGroups [a, a] = [(a, 2)] ∧ parseGroups [a] = [(a, 1)]) := by
  constructor
  · intro l hl
    match l with
    | [] => exact absurd rfl hl
    | b :: rest =>
      refine ⟨?_, parseGroupsAux_chain rest b 1, parseGroupsAux_counts rest b 1 Nat.one_pos⟩
      rw [parseGroups, parseGroupsAux_flatten rest b 1]
      rfl
  · intro a
    constructor
    · rw [parseGroups, parseGroupsAux, if_pos rfl, parseGroupsAux]
    · rw [parseGroups, parseGroupsAux]

theorem chunk_groups_are_maximal_runs_witness :
    ([(5 : Nat), 5, 7] ≠ []) ∧
    (((parseGroups [5, 5, 7]).map fun p => List.replicate p.2 p.1).flatten
        = [5, 5, 7] ∧
      (parseGroups [5, 5, 7]).Chain' (fun x y => x.1 ≠ y.1) ∧
      (∀ p ∈ parseGroups [5, 5, 7], 0 < p.2)) ∧
    parseGroups [9, 9] = [(9, 2)] ∧ parseGroups [9] = [(9, 1)] :=
  ⟨by decide, chunk_groups_are_maximal_runs.1 [5, 5, 7] (by decide),
   chunk_groups_are_maximal_runs.2 9⟩

/-! ## Hex encode/decode round trip -/

theorem hexCharVal_hexDigitChar {n : Nat} (h : n < 16) :
    hexCharVal (hexDigitChar n) = some n := by
  interval_cases n <;> rfl

theorem stoiHex2_nibbles {b : Nat} (h : b < 256) :
    stoiHex2 (hexDigitChar (b / 16)) (hexDigitChar (b % 16)) = some b := by
  have h1 : b / 16 < 16 := Nat.div_lt_of_lt_mul (by omega)
  have h2 : b % 16 < 16 := Nat.mod_lt _ (by omega)
  rw [stoiHex2, hexCharVal_hexDigitChar h1, hexCharVal_hexDigitChar h2]
  show some (16 * (b / 16) + b % 16) = some b
  exact congrArg some (by omega)

theorem hexToBytes_bytesToHex (bs : List Nat) (h : ∀ b ∈ bs, b < 256) :
    hexToBytes (bytesToHex bs) = some bs := by
  induction bs with
  | nil => rfl
  | cons b tl ih =>
    have hb : b < 256 := h b (List.mem_cons_self b tl)
    have htl := ih fun x hx => h x (List.mem_cons_of_mem b hx)
    have hshape : bytesToHex (b :: tl)
        = hexDigitChar (b / 16) :: hexDigitChar (b % 16) :: bytesToHex tl := by
      simp [bytesToHex, byteToHex]
    rw [hshape, hexToBytes, stoiHex2_nibbles hb, htl]
    rfl

/-- C10: the decoder's intermediate hex encoding round-trips — re-parsing the
2N-character hex string two characters at a time reproduces the received
bytes exactly — so the grouping stage of `processData` operates on precisely
the byte sequence that arrived. -/
theorem hex_roundtrip_feeds_grouping (reg : Reg) (bs : List Nat)
    (h : ∀ b ∈ bs, b < 256) :
    hexToBytes (bytesToHex bs) = some bs ∧
    processData reg bs = processGroups reg (parseGroups bs) := by
  refine ⟨hexToBytes_bytesToHex bs h, ?_⟩
  rw [processData, hexToBytes_bytesToHex bs h]

theorem hex_roundtrip_feeds_grouping_witness :
    (∀ b ∈ [(0 : Nat), 255, 16, 34], b < 256) ∧
    (hexToBytes (bytesToHex [0, 255, 16, 34]) = some [0, 255, 16, 34] ∧
      processData emptyReg [0, 255, 16, 34]
        = processGroups emptyReg (parseGroups [0, 255, 16, 34])) :=
  ⟨by decide, hex_roundtrip_feeds_grouping emptyReg [0, 255, 16, 34] (by decide)⟩

/-! ## Addon global state: listener ids and the global callback pair -/

theorem lookup_eraseP_key_none {l : List (Nat × Reg)}
    (hnd : (l.map Prod.fst).Nodup) (id : Nat) :
    (l.eraseP fun kv => kv.1 == id).lookup id = none := by
  induction l with
  | nil => rfl
  | cons hd tl ih =>
    rw [List.map_cons, List.nodup_cons] at hnd
    by_cases h : hd.1 = id
    · rw [List.eraseP_cons_of_pos (by simp [h])]
      rw [List.lookup_eq_none_iff]
      intro p hp
      simp only [bne_iff_ne, ne_eq]
      intro he
      exact hnd.1 (h ▸ he ▸ List.mem_map.mpr ⟨p, hp, rfl⟩)
    · rw [List.eraseP_cons_of_neg (by simp [h])]
      obtain ⟨k', b'⟩ := hd
      rw [List.lookup_cons]
      have hb : (id == k') = false := by
        simp only [beq_eq_false_iff_ne, ne_eq]
        exact fun he => h he.symm
      rw [hb]
      exact ih hnd.2

theorem lookup_eraseP_key_other {l : List (Nat × Reg)} {id j : Nat} (h : j ≠ id) :
    (l.eraseP fun kv => kv.1 == id).lookup j = l.lookup j := by
  induction l with
  | nil => rfl
  | cons hd tl ih =>
    obtain ⟨k', b'⟩ := hd
    by_cases hk : k' = id
    · rw [List.eraseP_cons_of_pos (by simp [hk])]
      rw [List.lookup_cons]
      have hb : (j == k') = false := by
        simp only [beq_eq_false_iff_ne, ne_eq]
        exact fun he => h (he.trans hk)
      rw [hb]
    · rw [List.eraseP_cons_of_neg (by simp [hk])]
      rw [List.lookup_cons, List.lookup_cons]
      cases hjk : (j == k') with
      | true => rfl
      | false => exact ih

theorem lookup_none_of_eraseP {l : List (Nat × Reg)} {k : Nat}
    (h : l.lookup k = none) (p : (Nat × Reg) → Bool) :
    (l.eraseP p).lookup k = none := by
  rw [List.lookup_eq_none_iff] at h ⊢
  exact fun q hq => h q ((List.eraseP_sublist l).subset hq)

/-- Unfolding `stopServer` on a live id. -/
theorem stopServer_of_lookup_some {s : AddonState} {id : Nat} {r : Reg}
    (h : s.servers.lookup id = some r) :
    stopServer s id =
      ({ s with
          servers := s.servers.eraseP (fun kv => kv.1 == id),
          eventCallback := none,
          rawCallback := none },
        true) := by
  unfold stopServer
  rw [h]

/-- Unfolding `stopServer` on an unallocated id. -/
theorem stopServer_of_lookup_none {s : AddonState} {id : Nat}
    (h : s.servers.lookup id = none) :
    stopServer s id = (s, false) := by
  unfold stopServer
  rw [h]

theorem isLive_eq (s : AddonState) (id : Nat) :
    isLive s id = (s.servers.lookup id).isSome := rfl

/-- The addon's well-formedness is preserved by every host operation. -/
theorem wf_runOp {s : AddonState} (hwf : Wf s) (op : HostOp) : Wf (runOp s op) := by
  cases op with
  | create cb raw ok =>
    cases ok with
    | false => exact hwf
    | true =>
      refine ⟨?_, ?_⟩
      · show (((s.nextServerId, emptyReg) :: s.servers).map Prod.fst).Nodup
        rw [List.map_cons, List.nodup_cons]
        refine ⟨?_, hwf.1⟩
        intro hmem
        rcases List.mem_map.mp hmem with ⟨kv, hkv, hfst⟩
        exact absurd (hfst ▸ hwf.2 kv hkv) (lt_irrefl _)
      · show ∀ kv ∈ (s.nextServerId, emptyReg) :: s.servers, kv.1 < s.nextServerId + 1
        intro kv hkv
        rcases List.mem_cons.mp hkv with rfl | hkv
        · exact Nat.lt_succ_self _
        · exact Nat.lt_succ_of_lt (hwf.2 kv hkv)
  | stop id =>
    show Wf (stopServer s id).1
    rcases hcase : s.servers.lookup id with _ | r
    · rw [stopServer_of_lookup_none hcase]
      exact hwf
    · rw [stopServer_of_lookup_some hcase]
      refine ⟨?_, ?_⟩
      · exact hwf.1.sublist ((List.eraseP_sublist s.servers).map Prod.fst)
      · intro kv hkv
        exact hwf.2 kv (List.mem_of_mem_eraseP hkv)

/-- An id that is not allocated and is below `g_nextServerId` can never become
allocated again: `createServer` only hands out fresh ids and `stopServer` only
removes. -/
theorem dead_id_stays_dead (id : Nat) : ∀ (ops : List HostOp) (s : AddonState),
    isLive s id = false → id < s.nextServerId →
    isLive (runOps s ops) id = false ∧ id < (runOps s ops).nextServerId := by
  intro ops
  induction ops with
  | nil => intro s h1 h2; exact ⟨h1, h2⟩
  | cons op tl ih =>
    intro s h1 h2
    have hstep : isLive (runOp s op) id = false ∧ id < (runOp s op).nextServerId := by
      cases op with
      | create cb raw ok =>
        cases ok with
        | false => exact ⟨h1, h2⟩
        | true =>
          constructor
          · show (((s.nextServerId, emptyReg) :: s.servers).lookup id).isSome = false
            have hne : (id == s.nextServerId) = false := by
              simp only [beq_eq_false_iff_ne, ne_eq]
              omega
            rw [List.lookup_cons, hne]
            exact h1
          · show id < s.nextServerId + 1
            omega
      | stop j =>
        show isLive (stopServer s j).1 id = false ∧ id < (stopServer s j).1.nextServerId
        rcases hcase : s.servers.lookup j with _ | r
        · rw [stopServer_of_lookup_none hcase]
          exact ⟨h1, h2⟩
        · rw [stopServer_of_lookup_some hcase]
          constructor
          · show ((s.servers.eraseP fun kv => kv.1 == j).lookup id).isSome = false
            have hnone : s.servers.lookup id = none := by
              cases hcase2 : s.servers.lookup id with
              | none => rfl
              | some r2 =>
                rw [isLive_eq, hcase2] at h1
                simp at h1
            rw [lookup_none_of_eraseP hnone]
            rfl
          · exact h2
    exact ih _ hstep.1 hstep.2

/-- C8: `stopServer(id)` answers true exactly when the id is currently
allocated, and deallocates it on that very call, so it answers true at most
once for an id: after a successful stop, every later call with the same id —
across any sequence of further `createServer`/`stopServer` operations —
answers false. -/
theorem stopServer_true_once (s : AddonState) (id : Nat) (ops : List HostOp)
    (hwf : Wf s) :
    ((stopServer s id).2 = true ↔ isLive s id = true) ∧
    (isLive s id = true → isLive (stopServer s id).1 id = false) ∧
    (isLive s id = true →
      (stopServer (runOps (stopServer s id).1 ops) id).2 = false) := by
  have hdead : isLive s id = true → isLive (stopServer s id).1 id = false := by
    intro hlive
    rcases Option.isSome_iff_exists.mp hlive with ⟨r, hr⟩
    rw [isLive_eq, stopServer_of_lookup_some hr]
    show ((s.servers.eraseP fun kv => kv.1 == id).lookup id).isSome = false
    rw [lookup_eraseP_key_none hwf.1]
    rfl
  refine ⟨?_, hdead, ?_⟩
  · cases hcase : s.servers.lookup id with
    | none =>
      rw [stopServer_of_lookup_none hcase, isLive_eq, hcase]
      simp
    | some r =>
      rw [stopServer_of_lookup_some hcase, isLive_eq, hcase]
      simp
  · intro hlive
    rcases Option.isSome_iff_exists.mp hlive with ⟨r, hr⟩
    have hlt : id < s.nextServerId := hwf.2 (id, r) (mem_of_lookup_eq_some hr)
    have hnext : id < (stopServer s id).1.nextServerId := by
      rw [stopServer_of_lookup_some hr]
      exact hlt
    have hrun := dead_id_stays_dead id ops (stopServer s id).1 (hdead hlive) hnext
    have hnone : (runOps (stopServer s id).1 ops).servers.lookup id = none := by
      cases hcase : (runOps (stopServer s id).1 ops).servers.lookup id with
      | none => rfl
      | some r2 =>
        rw [isLive_eq, hcase] at hrun
        simp at hrun
    rw [stopServer_of_lookup_none hnone]

theorem stopServer_true_once_witness :
    Wf (⟨[(1, emptyReg)], 2, some 5, some 6⟩ : AddonState) ∧
    isLive (⟨[(1, emptyReg)], 2, some 5, some 6⟩ : AddonState) 1 = true ∧
    ((stopServer (⟨[(1, emptyReg)], 2, some 5, some 6⟩ : AddonState) 1).2 = true ↔
      isLive (⟨[(1, emptyReg)], 2, some 5, some 6⟩ : AddonState) 1 = true) ∧
    isLive (stopServer (⟨[(1, emptyReg)], 2, some 5, some 6⟩ : AddonState) 1).1 1
      = false ∧
    (stopServer
        (runOps (stopServer (⟨[(1, emptyReg)], 2, some 5, some 6⟩ : AddonState) 1).1
          [HostOp.create 7 none true, HostOp.stop 2]) 1).2 = false := by
  have hwf : Wf (⟨[(1, emptyReg)], 2, some 5, some 6⟩ : AddonState) := by
    refine ⟨by decide, ?_⟩
    intro kv hkv
    rcases List.mem_singleton.mp hkv with rfl
    decide
  have h := stopServer_true_once (⟨[(1, emptyReg)], 2, some 5, some 6⟩ : AddonState)
    1 [HostOp.create 7 none true, HostOp.stop 2] hwf
  exact ⟨hwf, rfl, h.1, h.2.1 rfl, h.2.2 rfl⟩

/-- C9: the callback handles are one process-global pair: every
`createServer` call overwrites the global event handle (and the raw handle
exactly when one is supplied), and `stopServer` on any live id releases both
global handles while the other listeners stay allocated. -/
theorem global_callback_pair_shared (s : AddonState) (cbTok : Nat)
    (rawTok : Option Nat) (startOk : Bool) (id : Nat) :
    (createServer s cbTok rawTok startOk).1.eventCallback = some cbTok ∧
    (∀ t, rawTok = some t →
      (createServer s cbTok rawTok startOk).1.rawCallback = some t) ∧
    (isLive s id = true →
      (stopServer s id).1.eventCallback = none ∧
      (stopServer s id).1.rawCallback = none ∧
      ∀ j, j ≠ id → isLive (stopServer s id).1 j = isLive s j) := by
  refine ⟨?_, ?_, ?_⟩
  · cases startOk <;> rfl
  · intro t ht
    subst ht
    cases startOk <;> rfl
  · intro hlive
    rcases Option.isSome_iff_exists.mp hlive with ⟨r, hr⟩
    refine ⟨?_, ?_, ?_⟩
    · unfold stopServer; rw [hr]
    · unfold stopServer; rw [hr]
    · intro j hj
      show ((stopServer s id).1.servers.lookup j).isSome = (s.servers.lookup j).isSome
      unfold stopServer
      rw [hr]
      show ((s.servers.eraseP fun kv => kv.1 == id).lookup j).isSome
        = (s.servers.lookup j).isSome
      rw [lookup_eraseP_key_other hj]

theorem global_callback_pair_shared_witness :
    (createServer (⟨[(1, emptyReg)], 2, some 5, some 6⟩ : AddonState)
        7 (some 9) true).1.eventCallback = some 7 ∧
    (createServer (⟨[(1, emptyReg)], 2, some 5, some 6⟩ : AddonState)
        7 (some 9) true).1.rawCallback = some 9 ∧
    isLive (⟨[(1, emptyReg)], 2, some 5, some 6⟩ : AddonState) 1 = true ∧
    (stopServer (⟨[(1, emptyReg)], 2, some 5, some 6⟩ : AddonState) 1).1.eventCallback
      = none ∧
    (stopServer (⟨[(1, emptyReg)], 2, some 5, some 6⟩ : AddonState) 1).1.rawCallback
      = none ∧
    isLive (stopServer (⟨[(1, emptyReg)], 2, some 5, some 6⟩ : AddonState) 1).1 3
      = isLive (⟨[(1, emptyReg)], 2, some 5, some 6⟩ : AddonState) 3 := by
  have h := global_callback_pair_shared
    (⟨[(1, emptyReg)], 2, some 5, some 6⟩ : AddonState) 7 (some 9) true 1
  exact ⟨h.1, h.2.1 9 rfl, rfl, (h.2.2 rfl).1, (h.2.2 rfl).2.1,
    (h.2.2 rfl).2.2 3 (by decide)⟩

end Tourbox
